import Mathlib

/-
Verification of the terraform-provider-mongodb core against its specification.

The Go sources are shallowly embedded:
  * Go strings are byte sequences; we model them as `List Nat` (each entry a
    byte value) wherever the code manipulates them bytewise (the identity
    codec and the role resource), and as Lean `String` in the connection
    builder, which only concatenates ASCII configuration text.
  * Stateful CRUD entry points are modelled as pure functions returning the
    list of server commands they issue (a trace) together with their outcome;
    the server's replies are inputs.
  * External library calls (tls.X509KeyPair, x509 certificate-pool parsing)
    are parameters of the embedding, packaged in the `Ext` structure.
-/

namespace Mongodb

/-- Byte values of an ASCII string literal; used to write concrete Go strings
(Go strings are byte sequences and the source manipulates them bytewise). -/
def bytes (s : String) : List Nat :=
  s.data.map Char.toNat

/-- Lowercase hexadecimal digit character code for a value below 16,
mirroring the alphabet used by Go encoding/hex when encoding. -/
def hexDigitChar (n : Nat) : Nat :=
  if n < 10 then 48 + n else 87 + n

/-- Model of Go hex.EncodeToString over byte lists: two hexadecimal character
codes per byte, high nibble first. -/
def hexEncode : List Nat → List Nat
  | [] => []
  | b :: rest => hexDigitChar (b / 16) :: hexDigitChar (b % 16) :: hexEncode rest

/-- Value of one hexadecimal character code; Go hex.DecodeString accepts the
digits and both letter cases. -/
def fromHexChar (c : Nat) : Option Nat :=
  if 48 ≤ c ∧ c ≤ 57 then some (c - 48)
  else if 97 ≤ c ∧ c ≤ 102 then some (c - 87)
  else if 65 ≤ c ∧ c ≤ 70 then some (c - 55)
  else none

/-- Model of Go hex.DecodeString: fails on odd length or on a character that
is not a hexadecimal digit (every caller in the source discards the partially
decoded bytes when the error is non-nil). -/
def hexDecode : List Nat → Option (List Nat)
  | [] => some []
  | [_] => none
  | a :: b :: rest =>
    match fromHexChar a, fromHexChar b, hexDecode rest with
    | some hi, some lo, some r => some ((hi * 16 + lo) :: r)
    | _, _, _ => none

/-- The token computed when Create (resource_db_role.go, lines 106-108) sets
the resource ID: hex encoding of database ++ "." ++ role (46 is the byte value
of the dot). Update (lines 166-168) computes the same token. -/
def encodeId (database role : List Nat) : List Nat :=
  hexEncode (database ++ 46 :: role)

/-- Model of strings.SplitN(s, sep, 2): the bytes before the first separator,
paired with the bytes after it when the separator occurs (`none` when the
separator does not occur, in which case SplitN returns the single-element
slice holding the whole input). -/
def splitFirst (sep : Nat) : List Nat → List Nat × Option (List Nat)
  | [] => ([], none)
  | c :: rest =>
    if c = sep then ([], some rest)
    else
      match splitFirst sep rest with
      | (pre, tail) => (c :: pre, tail)

/-- The two failure modes of resourceDatabaseRoleParseId: the token is not
valid hex ("unexpected format of ID Error"), or the decoded bytes do not split
into two non-empty parts on the first dot ("unexpected format of ID, expected
database.roleName"). -/
inductive ParseIdError where
  | invalidHex
  | invalidFormat
  deriving DecidableEq

/-- Model of resourceDatabaseRoleParseId (resource_db_role.go, lines 217-232):
hex-decode the token, split on the first dot with SplitN(..., 2), require
exactly two non-empty parts, and return (roleName, database, err) — matching
the Go multi-value return, with empty strings alongside a non-nil error. -/
def resourceDatabaseRoleParseId (id : List Nat) :
    List Nat × List Nat × Option ParseIdError :=
  match hexDecode id with
  | none => ([], [], some ParseIdError.invalidHex)
  | some result =>
    match splitFirst 46 result with
    | (_, none) => ([], [], some ParseIdError.invalidFormat)
    | (db, some post) =>
      if db = [] ∨ post = [] then ([], [], some ParseIdError.invalidFormat)
      else (post, db, none)

/-- Inherited-role reference, struct Role of the source (fields role, db). -/
structure Role where
  role : List Nat
  db : List Nat
  deriving DecidableEq

/-- Declared privilege as decoded from configuration, struct PrivilegeDto. -/
structure PrivilegeDto where
  db : List Nat
  collection : List Nat
  actions : List (List Nat)
  deriving DecidableEq

/-- Resource of a privilege, struct Resource (fields db, collection). -/
structure Resource where
  db : List Nat
  collection : List Nat
  deriving DecidableEq

/-- Wire-shape privilege, struct Privilege (resource plus action names). -/
structure Privilege where
  resource : Resource
  actions : List (List Nat)
  deriving DecidableEq

/-- The PrivilegeDto-to-Privilege conversion performed by the loop at the top
of createRole. -/
def dtoToPrivilege (e : PrivilegeDto) : Privilege :=
  { resource := { db := e.db, collection := e.collection }, actions := e.actions }

/-- BSON values as far as the emitted commands need them. -/
inductive Bson where
  | str (s : List Nat)
  | arr (elems : List Bson)
  | doc (fields : List (String × Bson))

/-- Marshalling of an inherited-role entry into the command document. -/
def encRole (r : Role) : Bson :=
  Bson.doc [("role", Bson.str r.role), ("db", Bson.str r.db)]

/-- Marshalling of a privilege entry into the command document. -/
def encPriv (p : Privilege) : Bson :=
  Bson.doc
    [("resource", Bson.doc [("db", Bson.str p.resource.db),
                            ("collection", Bson.str p.resource.collection)]),
     ("actions", Bson.arr (p.actions.map Bson.str))]

/-- First value bound to a key in a command document (bson.D lookup). -/
def fieldVal (k : String) : List (String × Bson) → Option Bson
  | [] => none
  | (k2, v) :: rest => if k2 = k then some v else fieldVal k rest

/-- The createRole command document, with the four explicit branches of the
source (part_000, lines 261-273) on the emptiness of the inherited-role list
and of the privilege list; the empty branches pass the empty-array literal
that the source writes as an empty bson.M slice. -/
def createRoleCmdDoc (role : List Nat) (roles : List Role)
    (privileges : List Privilege) : List (String × Bson) :=
  if roles.length ≠ 0 ∧ privileges.length ≠ 0 then
    [("createRole", Bson.str role),
     ("privileges", Bson.arr (privileges.map encPriv)),
     ("roles", Bson.arr (roles.map encRole))]
  else if roles.length = 0 ∧ privileges.length ≠ 0 then
    [("createRole", Bson.str role),
     ("privileges", Bson.arr (privileges.map encPriv)),
     ("roles", Bson.arr [])]
  else if roles.length ≠ 0 ∧ privileges.length = 0 then
    [("createRole", Bson.str role),
     ("privileges", Bson.arr []),
     ("roles", Bson.arr (roles.map encRole))]
  else
    [("createRole", Bson.str role),
     ("privileges", Bson.arr []),
     ("roles", Bson.arr [])]

/-- Server commands issued by the resource operations. -/
inductive Cmd where
  | deleteOne (db coll : List Nat) (filterId : List Nat)
  | runCommand (db : List Nat) (doc : List (String × Bson))
  | getRoleQuery (role db : List Nat)

/-- Model of createRole (part_000, lines 249-279): convert the declared
privilege list, then run the command built by `createRoleCmdDoc` against the
declared database. The server's reply is an input (`serverErr`); the function
returns the command it ran and the error it propagates. -/
def createRole (serverErr : Option String) (role : List Nat) (roles : List Role)
    (privilege : List PrivilegeDto) (database : List Nat) : Cmd × Option String :=
  let privileges := privilege.map dtoToPrivilege
  (Cmd.runCommand database (createRoleCmdDoc role roles privileges), serverErr)

/-- One entry of the server's reported role list (resolved inherited roles and
privileges, the fields Read copies back). -/
structure RoleEntry where
  inheritedRoles : List Role
  privileges : List Privilege
  deriving DecidableEq

/-- Reply of the role-info query: the server's role list for the queried name. -/
structure GetRoleResult where
  roles : List RoleEntry
  deriving DecidableEq

/-- The server's replies to the commands an operation can issue, supplied as
inputs of the embedding: the DeleteOne error, the createRole command error,
and the role-info query outcome. -/
structure Server where
  deleteErr : Option String
  createErr : Option String
  getRoleRes : Except String GetRoleResult

/-- A surfaced diagnostic: the constant context text of the diag.Errorf call
and the formatted error operand (`none` models formatting a nil error). -/
inductive Diag where
  | errorf (ctx : String) (arg : Option String)

/-- The declared state of the role resource as read from configuration. -/
structure RoleData where
  name : List Nat
  database : List Nat
  privilege : List PrivilegeDto
  inheritedRole : List Role

/-- Result of one resource operation: the trace of server commands issued, and
either a diagnostic or the final (state fields, resource ID) pair. -/
structure OpResult where
  trace : List Cmd
  out : Except Diag (RoleData × List Nat)

/-- Modelled from the spec: the function getRole is referenced by Read but is
absent from the provided sources; per the spec it is "a read path that queries
role info including resolved privileges and inherited roles". It is modelled
as issuing a single query command and returning the server-reported role
list, with no mutation. -/
def getRole (sv : Server) (roleName database : List Nat) :
    List Cmd × Except String GetRoleResult :=
  ([Cmd.getRoleQuery roleName database], sv.getRoleRes)

/-- Constant error text standing for the Go encoding/hex error value. -/
def hexErrMsg : String := "encoding/hex: invalid input"

/-- Message text of a parse-ID failure. -/
def parseErrMsg : ParseIdError → String
  | ParseIdError.invalidHex => "unexpected format of ID Error"
  | ParseIdError.invalidFormat => "unexpected format of ID, expected database.roleName"

/-- Model of resourceDatabaseRoleRead (lines 174-215): parse the persisted ID,
query the role, report "Role does not exist" when the server's role list is
empty, otherwise copy the server view into the state fields and re-assign the
same ID. When getRole fails, the source formats `err` — the parse error, which
is nil on this path — rather than decodeError, so the operand is `none`. -/
def resourceDatabaseRoleRead (stateID : List Nat) (sv : Server) : OpResult :=
  match resourceDatabaseRoleParseId stateID with
  | (_, _, some e) => ⟨[], Except.error (Diag.errorf "" (some (parseErrMsg e)))⟩
  | (roleName, database, none) =>
    match getRole sv roleName database with
    | (q, Except.error _) =>
      ⟨q, Except.error (Diag.errorf "Error decoding role : " none)⟩
    | (q, Except.ok result) =>
      match result.roles with
      | [] => ⟨q, Except.error (Diag.errorf "Role does not exist" none)⟩
      | r0 :: _ =>
        ⟨q, Except.ok
          ({ name := roleName, database := database,
             privilege := r0.privileges.map (fun s =>
               { db := s.resource.db, collection := s.resource.collection,
                 actions := s.actions }),
             inheritedRole := r0.inheritedRoles }, stateID)⟩

/-- Model of resourceDatabaseRoleCreate (lines 81-110): run createRole, wrap a
failure with the "Could not create the role" context, otherwise set the ID to
the hex token and finish with Read (the mapstructure decoding steps cannot
fail on the already-typed declared state and are elided). -/
def resourceDatabaseRoleCreate (data : RoleData) (sv : Server) : OpResult :=
  match createRole sv.createErr data.name data.inheritedRole data.privilege data.database with
  | (c, some e) =>
    ⟨[c], Except.error (Diag.errorf "Could not create the role : " (some e))⟩
  | (c, none) =>
    let hx := encodeId data.database data.name
    let r := resourceDatabaseRoleRead hx sv
    ⟨c :: r.trace, r.out⟩

/-- Model of resourceDatabaseRoleDelete (lines 112-129): hex-decode the
persisted ID, delete by _id from collection "system.roles" of database
"admin", then finish with Read. -/
def resourceDatabaseRoleDelete (stateId : List Nat) (sv : Server) : OpResult :=
  match hexDecode stateId with
  | none => ⟨[], Except.error (Diag.errorf "ID mismatch " (some hexErrMsg))⟩
  | some id =>
    let c := Cmd.deleteOne (bytes "admin") (bytes "system.roles") id
    match sv.deleteErr with
    | some e => ⟨[c], Except.error (Diag.errorf "" (some e))⟩
    | none =>
      let r := resourceDatabaseRoleRead stateId sv
      ⟨c :: r.trace, r.out⟩

/-- Model of resourceDatabaseRoleUpdate (lines 131-172): hex-decode the
persisted ID, delete the old role document from admin.system.roles, run
createRole with the declared definition, set the ID to the freshly computed
hex token and finish with Read. In the branch where createRole fails, the
source formats `err` — the DeleteOne error, which is nil on this path since
the function already returned when it was non-nil — instead of err2, so the
formatted operand is `none`. -/
def resourceDatabaseRoleUpdate (data : RoleData) (stateId : List Nat)
    (sv : Server) : OpResult :=
  match hexDecode stateId with
  | none => ⟨[], Except.error (Diag.errorf "ID mismatch " (some hexErrMsg))⟩
  | some id =>
    let c := Cmd.deleteOne (bytes "admin") (bytes "system.roles") id
    match sv.deleteErr with
    | some e => ⟨[c], Except.error (Diag.errorf "" (some e))⟩
    | none =>
      match createRole sv.createErr data.name data.inheritedRole data.privilege data.database with
      | (cc, some _) =>
        ⟨[c, cc], Except.error (Diag.errorf "Could not create the role  :  " none)⟩
      | (cc, none) =>
        let hx := encodeId data.database data.name
        let r := resourceDatabaseRoleRead hx sv
        ⟨c :: cc :: r.trace, r.out⟩

/-- Is the command a RunCommand invocation (the constructor through which
createRole commands are issued)? -/
def isCreateCmd : Cmd → Bool
  | Cmd.runCommand _ _ => true
  | _ => false

/-- The provider's connection configuration, struct ClientConfig of the
source; RetryWrites is the tri-state (-1 unset, 0 false, 1 true). -/
structure ClientConfig where
  host : String
  port : String
  username : String
  password : String
  db : String
  ssl : Bool
  insecureSkipVerify : Bool
  replicaSet : String
  ca : String
  cert : String
  key : String
  certPath : String
  retryWrites : Int
  deriving DecidableEq

/-- Model of strconv.FormatBool. -/
def formatBool (b : Bool) : String := if b then "true" else "false"

/-- Model of addArgs (part_000, lines 54-61). -/
def addArgs (arguments newArg : String) : String :=
  if arguments ≠ "" then arguments ++ "&" ++ newArg
  else "/?" ++ newArg

/-- The query-argument assembly block repeated verbatim at the three client
construction sites of the source (MongoClient lines 91-100 and the two
builder functions). -/
def assembleArgs (retryWrites : Int) (ssl : Bool) (replicaSet : String) : String :=
  let a0 := ""
  let a1 := if retryWrites ≠ -1 then
      addArgs a0 ("retrywrites=" ++ formatBool (retryWrites == 1)) else a0
  let a2 := if ssl then addArgs a1 "ssl=true" else a1
  if replicaSet ≠ "" then addArgs a2 ("replicaSet=" ++ replicaSet) else a2

/-- The connection URI each construction site builds:
"mongodb://" + host + ":" + port + arguments. -/
def mkUri (config : ClientConfig) : String :=
  "mongodb://" ++ config.host ++ ":" ++ config.port
    ++ assembleArgs config.retryWrites config.ssl config.replicaSet

/-- The TLS policy carried by a constructed client: the skip-verify flag, the
CA bytes appended to the root pool, and the parsed client key pairs (recorded
as the byte buffers handed to the parser). -/
structure TLSConf where
  insecureSkipVerify : Bool
  rootCAs : Option String
  certificates : List (String × String)
  deriving DecidableEq

/-- A constructed (not yet connected) client handle: URI, credential, and
optional TLS policy. -/
structure MClient where
  uri : String
  authSource : String
  username : String
  password : String
  tls : Option TLSConf
  deriving DecidableEq

/-- The external library functions the builders call: tls.X509KeyPair (returns
the parsed pair or a parse error) and x509 CertPool.AppendCertsFromPEM
(reports whether any certificate was parsed). -/
structure Ext where
  x509KeyPair : String → String → Except String (String × String)
  appendCertsFromPEM : String → Bool

/-- Model of getTLSConfigWithAllServerCertificates (lines 122-137). -/
def getTLSConfigWithAllServerCertificates (ext : Ext) (ca : String) :
    Except String TLSConf :=
  if ext.appendCertsFromPEM ca then Except.ok ⟨false, some ca, []⟩
  else Except.error "Failed parsing pem file"

/-- The CA step shared by both builders: nil or empty CA bytes switch on
skip-verify; otherwise the bytes must parse into the root pool. Returns
(skip-verify contribution, appended CA bytes). -/
def caStep (ext : Ext) (ca : Option String) : Except String (Bool × Option String) :=
  match ca with
  | none => Except.ok (true, none)
  | some s =>
    if s.length = 0 then Except.ok (true, none)
    else if ext.appendCertsFromPEM s then Except.ok (false, some s)
    else Except.error "Could not add RootCA pem"

/-- Model of buildHttpClientFromCertPath (lines 139-177): parse cert and key
buffers as a key pair when both are non-nil, otherwise switch on skip-verify;
then the CA step; then the client with the assembled URI and credential. -/
def buildHttpClientFromCertPath (ext : Ext) (ca cert key : Option String)
    (config : ClientConfig) : Except String MClient :=
  let finish := fun (certs : List (String × String)) (skipFromCerts : Bool) =>
    match caStep ext ca with
    | Except.error e => Except.error e
    | Except.ok (skipCa, roots) =>
      Except.ok { uri := mkUri config, authSource := config.db,
                  username := config.username, password := config.password,
                  tls := some ⟨skipFromCerts || skipCa, roots, certs⟩ }
  match cert, key with
  | some cs, some ks =>
    match ext.x509KeyPair cs ks with
    | Except.error e => Except.error e
    | Except.ok kp => finish [kp] false
  | _, _ => finish [] true

/-- Model of buildHTTPClientFromBytes (lines 178-217): like the cert-path
builder but missing cert or key does not switch on skip-verify, and the
config's InsecureSkipVerify flag is honoured at the end. -/
def buildHTTPClientFromBytes (ext : Ext) (caPEMCert certPEMBlock keyPEMBlock : Option String)
    (config : ClientConfig) : Except String MClient :=
  let finish := fun (certs : List (String × String)) =>
    match caStep ext caPEMCert with
    | Except.error e => Except.error e
    | Except.ok (skipCa, roots) =>
      Except.ok { uri := mkUri config, authSource := config.db,
                  username := config.username, password := config.password,
                  tls := some ⟨skipCa || config.insecureSkipVerify, roots, certs⟩ }
  match certPEMBlock, keyPEMBlock with
  | some cs, some ks =>
    match ext.x509KeyPair cs ks with
    | Except.error e => Except.error e
    | Except.ok kp => finish [kp]
  | _, _ => finish []

/-- Model of filepath.Join for a directory and a file name (Join additionally
cleans the path, which is immaterial for the clean directories considered). -/
def filepathJoin (dir file : String) : String := dir ++ "/" ++ file

/-- Model of ClientConfig.MongoClient (lines 63-120). Note the cert-path
branch: the source converts the three joined path STRINGS to byte slices and
hands those bytes to the builder as the PEM buffers — it performs no file
read (this embedding therefore takes no filesystem), although its own comment
says "If there is cert information, load it and use it". -/
def MongoClient (ext : Ext) (c : ClientConfig) : Except String MClient :=
  if c.cert ≠ "" ∨ c.key ≠ "" then
    if c.cert = "" ∨ c.key = "" then
      Except.error "cert_material, and key_material must be specified"
    else if c.certPath ≠ "" then
      Except.error "cert_path must not be specified"
    else
      buildHTTPClientFromBytes ext (some c.ca) (some c.cert) (some c.key) c
  else if c.certPath ≠ "" then
    buildHttpClientFromCertPath ext (some (filepathJoin c.certPath "ca.pem"))
      (some (filepathJoin c.certPath "cert.pem"))
      (some (filepathJoin c.certPath "key.pem")) c
  else if c.ca ≠ "" then
    match getTLSConfigWithAllServerCertificates ext c.ca with
    | Except.error e => Except.error e
    | Except.ok tc =>
      Except.ok { uri := mkUri c, authSource := c.db, username := c.username,
                  password := c.password, tls := some tc }
  else
    Except.ok { uri := mkUri c, authSource := c.db, username := c.username,
                password := c.password, tls := none }

/-- PEM-armor test: real certificate and key parsers only accept buffers that
begin with a PEM BEGIN header. Used to instantiate `Ext` concretely. -/
def pemish (s : String) : Bool := s.data.take 10 == "-----BEGIN".data

/-- A concrete instantiation of the external parsers: a key pair parses
exactly when both buffers carry PEM armor, and the CA pool accepts exactly
PEM-armored buffers. -/
def extPEM : Ext where
  x509KeyPair := fun cs ks =>
    if pemish cs && pemish ks then Except.ok (cs, ks)
    else Except.error "tls: failed to find any PEM data in certificate input"
  appendCertsFromPEM := pemish

/-- The URI of a successfully constructed client, `none` when construction
failed. -/
def clientUri : Except String MClient → Option String
  | Except.ok m => some m.uri
  | Except.error _ => none

/-- Recognized query options in assembly order, each present exactly when its
source field is set, as the spec words it: retrywrites only when the
tri-state is not unset (value true iff the tri-state is true), ssl=true only
when the TLS toggle is on, replicaSet only when the name is non-empty. -/
def queryOpts (retryWrites : Int) (ssl : Bool) (replicaSet : String) : List String :=
  (if retryWrites ≠ -1 then ["retrywrites=" ++ formatBool (retryWrites == 1)] else []) ++
  (if ssl then ["ssl=true"] else []) ++
  (if replicaSet ≠ "" then ["replicaSet=" ++ replicaSet] else [])

/-- Pairs joined with "&". -/
def joinAmp : List String → String
  | [] => ""
  | [x] => x
  | x :: y :: xs => x ++ "&" ++ joinAmp (y :: xs)

/-- The query string as the spec words it: the recognized pairs joined with
"&", prefixed by "/?" before the first pair, empty when no option is set. -/
def queryString (retryWrites : Int) (ssl : Bool) (replicaSet : String) : String :=
  match queryOpts retryWrites ssl replicaSet with
  | [] => ""
  | x :: xs => "/?" ++ joinAmp (x :: xs)

theorem fromHexChar_hexDigitChar (n : Nat) (h : n < 16) :
    fromHexChar (hexDigitChar n) = some n := by
  interval_cases n <;> rfl

theorem hexDecode_hexEncode (s : List Nat) (h : ∀ b ∈ s, b < 256) :
    hexDecode (hexEncode s) = some s := by
  induction s with
  | nil => rfl
  | cons b t ih =>
    have hb : b < 256 := h b (List.mem_cons_self b t)
    have ht : ∀ x ∈ t, x < 256 := fun x hx => h x (List.mem_cons_of_mem b hx)
    have h1 : b / 16 < 16 := Nat.div_lt_of_lt_mul (by omega)
    have h2 : b % 16 < 16 := Nat.mod_lt b (by omega)
    have h3 : b / 16 * 16 + b % 16 = b := Nat.div_add_mod' b 16
    simp only [hexEncode, hexDecode, fromHexChar_hexDigitChar _ h1,
      fromHexChar_hexDigitChar _ h2, ih ht, h3]

theorem hexDecode_encodeId (db role : List Nat)
    (hb1 : ∀ b ∈ db, b < 256) (hb2 : ∀ b ∈ role, b < 256) :
    hexDecode (encodeId db role) = some (db ++ 46 :: role) := by
  apply hexDecode_hexEncode
  intro b hb
  rcases List.mem_append.mp hb with h | h
  · exact hb1 b h
  · rcases List.mem_cons.mp h with h | h
    · omega
    · exact hb2 b h

theorem splitFirst_append (pre post : List Nat) (h : ¬ 46 ∈ pre) :
    splitFirst 46 (pre ++ 46 :: post) = (pre, some post) := by
  induction pre with
  | nil => simp [splitFirst]
  | cons c t ih =>
    simp only [List.mem_cons, not_or] at h
    have hc : ¬ c = 46 := fun hce => h.1 hce.symm
    simp [splitFirst, hc, ih h.2]

theorem splitFirst_not_mem (s : List Nat) (h : ¬ 46 ∈ s) :
    splitFirst 46 s = (s, none) := by
  induction s with
  | nil => rfl
  | cons c rest ih =>
    simp only [List.mem_cons, not_or] at h
    have hc : ¬ c = 46 := fun hce => h.1 hce.symm
    simp [splitFirst, hc, ih h.2]

theorem splitFirst_some (s pre post : List Nat)
    (h : splitFirst 46 s = (pre, some post)) : s = pre ++ 46 :: post := by
  induction s generalizing pre with
  | nil => simp [splitFirst] at h
  | cons c rest ih =>
    by_cases hc : c = 46
    · subst hc
      simp only [splitFirst, if_true, eq_self_iff_true, Prod.mk.injEq,
        Option.some.injEq] at h
      rw [← h.1, ← h.2]
      rfl
    · rcases hsp : splitFirst 46 rest with ⟨p, t2⟩
      simp only [splitFirst, if_neg hc, hsp, Prod.mk.injEq] at h
      obtain ⟨h1, h2⟩ := h
      have hrest : rest = p ++ 46 :: post := ih p (by rw [hsp, h2])
      rw [← h1, hrest]
      rfl

theorem parseId_encodeId (db role : List Nat)
    (hdb : db ≠ []) (hrole : role ≠ [])
    (hb1 : ∀ b ∈ db, b < 256) (hb2 : ∀ b ∈ role, b < 256)
    (hdot : ¬ 46 ∈ db) :
    resourceDatabaseRoleParseId (encodeId db role) = (role, db, none) := by
  simp only [resourceDatabaseRoleParseId, hexDecode_encodeId db role hb1 hb2,
    splitFirst_append db role hdot]
  rw [if_neg (fun hor => hor.elim hdb hrole)]

theorem parseId_ok_hexDecode (id roleName database : List Nat)
    (h : resourceDatabaseRoleParseId id = (roleName, database, none)) :
    hexDecode id = some (database ++ 46 :: roleName) := by
  unfold resourceDatabaseRoleParseId at h
  split at h
  · simp at h
  · next result hdec =>
    split at h
    · simp at h
    · next db post hsp =>
      split at h
      · simp at h
      · simp only [Prod.mk.injEq] at h
        obtain ⟨h1, h2, _⟩ := h
        rw [hdec, splitFirst_some result db post hsp, h1, h2]

/-- C1: for non-empty byte strings database and role where the database
contains no dot, decoding the token produced when Create sets the resource ID
(the hex encoding of database ++ "." ++ role) returns exactly
(role, database) in that order, with no error. -/
theorem c1_encode_decode_roundtrip (db role : List Nat)
    (hdb : db ≠ []) (hrole : role ≠ [])
    (hb1 : ∀ b ∈ db, b < 256) (hb2 : ∀ b ∈ role, b < 256)
    (hdot : ¬ 46 ∈ db) :
    resourceDatabaseRoleParseId (encodeId db role) = (role, db, none) :=
  parseId_encodeId db role hdb hrole hb1 hb2 hdot

/-- Witness for C1 at database "a" and role "b.c" (a role name may itself
contain a dot; the split is on the first dot only). -/
theorem c1_witness :
    resourceDatabaseRoleParseId (encodeId (bytes "a") (bytes "b.c"))
      = (bytes "b.c", bytes "a", none) :=
  c1_encode_decode_roundtrip (bytes "a") (bytes "b.c") (by decide) (by decide)
    (by decide) (by decide) (by decide)

/-- C7: a token that is not valid hex, or whose decoded bytes contain no dot,
or whose part before or after the first dot is empty, makes
resourceDatabaseRoleParseId return a format error together with empty result
strings; it never returns partial fields as a success (the function is total,
so it cannot panic). -/
theorem c7_malformed_token_error (t : List Nat) :
    (hexDecode t = none →
      resourceDatabaseRoleParseId t = ([], [], some ParseIdError.invalidHex)) ∧
    (∀ s, hexDecode t = some s → ¬ 46 ∈ s →
      resourceDatabaseRoleParseId t = ([], [], some ParseIdError.invalidFormat)) ∧
    (∀ s pre post, hexDecode t = some s → splitFirst 46 s = (pre, some post) →
      pre = [] ∨ post = [] →
      resourceDatabaseRoleParseId t = ([], [], some ParseIdError.invalidFormat)) := by
  refine ⟨?_, ?_, ?_⟩
  · intro hdec
    simp only [resourceDatabaseRoleParseId, hdec]
  · intro s hdec hnot
    simp only [resourceDatabaseRoleParseId, hdec, splitFirst_not_mem s hnot]
  · intro s pre post hdec hsp hemp
    simp only [resourceDatabaseRoleParseId, hdec, hsp]
    rw [if_pos hemp]

/-- Witness for C7 at three malformed tokens: non-hex characters, a decoded
content without a dot, and a decoded content with an empty database half. -/
theorem c7_witness :
    resourceDatabaseRoleParseId (bytes "zz") = ([], [], some ParseIdError.invalidHex) ∧
    resourceDatabaseRoleParseId (bytes "616263") = ([], [], some ParseIdError.invalidFormat) ∧
    resourceDatabaseRoleParseId (bytes "2e61") = ([], [], some ParseIdError.invalidFormat) :=
  ⟨(c7_malformed_token_error (bytes "zz")).1 (by decide),
   (c7_malformed_token_error (bytes "616263")).2.1 (bytes "abc") (by decide) (by decide),
   (c7_malformed_token_error (bytes "2e61")).2.2 (bytes ".a") [] (bytes "a")
     (by decide) (by decide) (Or.inl rfl)⟩

theorem createRoleCmdDoc_privileges (role : List Nat) (roles : List Role)
    (privs : List Privilege) :
    fieldVal "privileges" (createRoleCmdDoc role roles privs)
      = some (Bson.arr (privs.map encPriv)) := by
  rcases roles with _ | ⟨r, rs⟩ <;> rcases privs with _ | ⟨p, ps⟩ <;>
    simp [createRoleCmdDoc, fieldVal]

theorem createRoleCmdDoc_roles (role : List Nat) (roles : List Role)
    (privs : List Privilege) :
    fieldVal "roles" (createRoleCmdDoc role roles privs)
      = some (Bson.arr (roles.map encRole)) := by
  rcases roles with _ | ⟨r, rs⟩ <;> rcases privs with _ | ⟨p, ps⟩ <;>
    simp [createRoleCmdDoc, fieldVal]

/-- C3: in all four combinations of inherited roles declared or absent and
privileges declared or absent, the createRole command document carries
explicit array values for both the "privileges" field and the "roles" field —
the array of the marshalled inputs, hence the empty array when the
corresponding input list is empty, never an omitted field. -/
theorem c3_createRole_explicit_arrays (serverErr : Option String) (role : List Nat)
    (roles : List Role) (priv : List PrivilegeDto) (database : List Nat) :
    ∃ fields, (createRole serverErr role roles priv database).1
        = Cmd.runCommand database fields ∧
      fieldVal "privileges" fields
        = some (Bson.arr ((priv.map dtoToPrivilege).map encPriv)) ∧
      fieldVal "roles" fields = some (Bson.arr (roles.map encRole)) :=
  ⟨createRoleCmdDoc role roles (priv.map dtoToPrivilege), rfl,
   createRoleCmdDoc_privileges role roles (priv.map dtoToPrivilege),
   createRoleCmdDoc_roles role roles (priv.map dtoToPrivilege)⟩

theorem read_encodeId (db name : List Nat) (sv : Server) (resp : GetRoleResult)
    (hdb : db ≠ []) (hname : name ≠ [])
    (hb1 : ∀ b ∈ db, b < 256) (hb2 : ∀ b ∈ name, b < 256) (hdot : ¬ 46 ∈ db)
    (hget : sv.getRoleRes = Except.ok resp) (r0 : RoleEntry) (rest : List RoleEntry)
    (hroles : resp.roles = r0 :: rest) :
    resourceDatabaseRoleRead (encodeId db name) sv =
      ⟨[Cmd.getRoleQuery name db],
       Except.ok ({ name := name, database := db,
                    privilege := r0.privileges.map (fun s =>
                      { db := s.resource.db, collection := s.resource.collection,
                        actions := s.actions }),
                    inheritedRole := r0.inheritedRoles }, encodeId db name)⟩ := by
  simp only [resourceDatabaseRoleRead, getRole,
    parseId_encodeId db name hdb hname hb1 hb2 hdot, hget, hroles]

/-- C2: when the declared database and name equal those encoded in the
persisted handle (the handle is the token Create computes for them), and the
server accepts both commands, Update issues exactly one delete keyed by the
decoded prior identity followed by exactly one createRole command carrying
the newly declared privilege list (then the read-back query), and the
resource's identity token after Update is byte-identical to the token before. -/
theorem c2_update_trace_and_token (data : RoleData) (sv : Server)
    (resp : GetRoleResult)
    (hdb : data.database ≠ []) (hname : data.name ≠ [])
    (hb1 : ∀ b ∈ data.database, b < 256) (hb2 : ∀ b ∈ data.name, b < 256)
    (hdot : ¬ 46 ∈ data.database)
    (hdel : sv.deleteErr = none) (hcr : sv.createErr = none)
    (hget : sv.getRoleRes = Except.ok resp) (hne : resp.roles ≠ []) :
    (resourceDatabaseRoleUpdate data (encodeId data.database data.name) sv).trace
      = [Cmd.deleteOne (bytes "admin") (bytes "system.roles")
           (data.database ++ 46 :: data.name),
         Cmd.runCommand data.database
           (createRoleCmdDoc data.name data.inheritedRole
             (data.privilege.map dtoToPrivilege)),
         Cmd.getRoleQuery data.name data.database]
    ∧ ∃ d, (resourceDatabaseRoleUpdate data (encodeId data.database data.name) sv).out
        = Except.ok (d, encodeId data.database data.name) := by
  obtain ⟨r0, rest, hrr⟩ := List.exists_cons_of_ne_nil hne
  have hread := read_encodeId data.database data.name sv resp hdb hname hb1 hb2
    hdot hget r0 rest hrr
  simp only [resourceDatabaseRoleUpdate,
    hexDecode_encodeId data.database data.name hb1 hb2, hdel, createRole, hcr,
    hread]
  exact ⟨trivial, _, rfl⟩

/-- Witness for C2: a concrete update of role "r" in database "admin" whose
privilege list changed, against a server that accepts both commands. -/
theorem c2_witness :
    (resourceDatabaseRoleUpdate
        ⟨bytes "r", bytes "admin",
         [⟨bytes "sales", bytes "orders", [bytes "find"]⟩], []⟩
        (encodeId (bytes "admin") (bytes "r"))
        ⟨none, none, Except.ok ⟨[⟨[], []⟩]⟩⟩).trace
      = [Cmd.deleteOne (bytes "admin") (bytes "system.roles")
           (bytes "admin" ++ 46 :: bytes "r"),
         Cmd.runCommand (bytes "admin")
           (createRoleCmdDoc (bytes "r") []
             ([⟨bytes "sales", bytes "orders", [bytes "find"]⟩].map dtoToPrivilege)),
         Cmd.getRoleQuery (bytes "r") (bytes "admin")]
    ∧ ∃ d, (resourceDatabaseRoleUpdate
        ⟨bytes "r", bytes "admin",
         [⟨bytes "sales", bytes "orders", [bytes "find"]⟩], []⟩
        (encodeId (bytes "admin") (bytes "r"))
        ⟨none, none, Except.ok ⟨[⟨[], []⟩]⟩⟩).out
      = Except.ok (d, encodeId (bytes "admin") (bytes "r")) :=
  c2_update_trace_and_token
    ⟨bytes "r", bytes "admin", [⟨bytes "sales", bytes "orders", [bytes "find"]⟩], []⟩
    ⟨none, none, Except.ok ⟨[⟨[], []⟩]⟩⟩ ⟨[⟨[], []⟩]⟩
    (by decide) (by decide) (by decide) (by decide) (by decide) rfl rfl rfl
    (by decide)

/-- C6: when the persisted handle parses and the server reports a role list
with zero entries, Read fails with "Role does not exist" instead of
succeeding with empty lists, and its trace contains no RunCommand — in
particular it never issues a createRole command to recreate the role. -/
theorem c6_read_role_missing_error (stateId roleName database : List Nat)
    (sv : Server) (resp : GetRoleResult)
    (hp : resourceDatabaseRoleParseId stateId = (roleName, database, none))
    (hget : sv.getRoleRes = Except.ok resp) (hroles : resp.roles = []) :
    (resourceDatabaseRoleRead stateId sv).out
      = Except.error (Diag.errorf "Role does not exist" none) ∧
    (resourceDatabaseRoleRead stateId sv).trace.filter isCreateCmd = [] := by
  simp only [resourceDatabaseRoleRead, getRole, hp, hget, hroles]
  constructor <;> trivial

/-- Witness for C6: reading role "r" of database "admin" from a server whose
role list for it is empty. -/
theorem c6_witness :
    (resourceDatabaseRoleRead (encodeId (bytes "admin") (bytes "r"))
        ⟨none, none, Except.ok ⟨[]⟩⟩).out
      = Except.error (Diag.errorf "Role does not exist" none) ∧
    (resourceDatabaseRoleRead (encodeId (bytes "admin") (bytes "r"))
        ⟨none, none, Except.ok ⟨[]⟩⟩).trace.filter isCreateCmd = [] :=
  c6_read_role_missing_error (encodeId (bytes "admin") (bytes "r"))
    (bytes "r") (bytes "admin") ⟨none, none, Except.ok ⟨[]⟩⟩ ⟨[]⟩
    (by decide) rfl rfl

/-- C8: the claim fails on the code. When Update's delete succeeds and its
createRole command then fails, the source formats the variable err — the
delete error, provably nil on this path — instead of err2, so the surfaced
diagnostic does not carry the createRole error message. This theorem
evaluates Update at such an input: the server rejects createRole with
"duplicate role", yet the diagnostic's formatted operand is none, not
some "duplicate role". (Read has the same slip for getRole failures.) -/
theorem c8_update_create_error_message_lost :
    (resourceDatabaseRoleUpdate ⟨bytes "r", bytes "admin", [], []⟩
        (encodeId (bytes "admin") (bytes "r"))
        ⟨none, some "duplicate role", Except.ok ⟨[]⟩⟩).out
      = Except.error (Diag.errorf "Could not create the role  :  " none) := rfl

/-- C10: for every persisted handle that parses, both Delete and the delete
phase of Update issue their first command as a DeleteOne against collection
"system.roles" of database "admin" — the database encoded in the handle never
selects the target database — with the _id filter equal to the full decoded
handle bytes, database ++ "." ++ roleName. -/
theorem c10_delete_targets_admin_system_roles (stateId roleName database : List Nat)
    (data : RoleData) (sv : Server)
    (hp : resourceDatabaseRoleParseId stateId = (roleName, database, none)) :
    (resourceDatabaseRoleDelete stateId sv).trace.head?
      = some (Cmd.deleteOne (bytes "admin") (bytes "system.roles")
          (database ++ 46 :: roleName)) ∧
    (resourceDatabaseRoleUpdate data stateId sv).trace.head?
      = some (Cmd.deleteOne (bytes "admin") (bytes "system.roles")
          (database ++ 46 :: roleName)) := by
  have hdec := parseId_ok_hexDecode stateId roleName database hp
  constructor
  · simp only [resourceDatabaseRoleDelete, hdec]
    cases h : sv.deleteErr <;> simp
  · simp only [resourceDatabaseRoleUpdate, hdec]
    cases h : sv.deleteErr
    · cases h2 : sv.createErr <;> simp [createRole, h2]
    · simp

/-- Witness for C10: a handle naming database "db1", showing the delete still
targets admin.system.roles. -/
theorem c10_witness :
    (resourceDatabaseRoleDelete (encodeId (bytes "db1") (bytes "r"))
        ⟨none, none, Except.ok ⟨[]⟩⟩).trace.head?
      = some (Cmd.deleteOne (bytes "admin") (bytes "system.roles")
          (bytes "db1" ++ 46 :: bytes "r")) ∧
    (resourceDatabaseRoleUpdate ⟨bytes "r", bytes "db1", [], []⟩
        (encodeId (bytes "db1") (bytes "r"))
        ⟨none, none, Except.ok ⟨[]⟩⟩).trace.head?
      = some (Cmd.deleteOne (bytes "admin") (bytes "system.roles")
          (bytes "db1" ++ 46 :: bytes "r")) :=
  c10_delete_targets_admin_system_roles (encodeId (bytes "db1") (bytes "r"))
    (bytes "r") (bytes "db1") ⟨bytes "r", bytes "db1", [], []⟩
    ⟨none, none, Except.ok ⟨[]⟩⟩ (by decide)

theorem strDataAppend (s t : String) : (s ++ t).data = s.data ++ t.data := by
  cases s
  cases t
  rfl

theorem strExt (s t : String) (h : s.data = t.data) : s = t := by
  cases s
  cases t
  cases h
  rfl

theorem append_ne_empty (s t : String) (h : s ≠ "") : s ++ t ≠ "" := by
  intro hc
  apply h
  apply strExt
  have hd : s.data ++ t.data = [] := by
    have h2 := congrArg String.data hc
    rwa [strDataAppend] at h2
  exact (List.append_eq_nil.mp hd).1

theorem str_append_eq_empty (s t : String) : (s ++ t = "") ↔ (s = "" ∧ t = "") := by
  constructor
  · intro h
    have hd := congrArg String.data h
    rw [strDataAppend] at hd
    have h2 := List.append_eq_nil.mp hd
    exact ⟨strExt s "" h2.1, strExt t "" h2.2⟩
  · rintro ⟨h1, h2⟩
    rw [h1, h2]
    rfl

theorem assembleArgs_eq_queryString (retryWrites : Int) (ssl : Bool)
    (replicaSet : String) :
    assembleArgs retryWrites ssl replicaSet
      = queryString retryWrites ssl replicaSet := by
  by_cases h1 : retryWrites = -1 <;> by_cases h2 : ssl = true <;>
    by_cases h3 : replicaSet = "" <;>
    · apply strExt
      simp [assembleArgs, queryString, queryOpts, joinAmp, addArgs, h1, h2, h3,
        str_append_eq_empty, strDataAppend]

/-- C9: for every ClientConfig reaching connection-string assembly (no inline
cert or key material and no certificate directory), the assembled arguments
equal the spec's query string — each recognized option present exactly when
its source field is set, pairs joined with "&" and prefixed by "/?", empty
when no option is set — and any client MongoClient constructs carries the URI
base address followed by that query string. -/
theorem c9_uri_query_assembly (ext : Ext) (c : ClientConfig)
    (h1 : c.cert = "") (h2 : c.key = "") (h3 : c.certPath = "") :
    assembleArgs c.retryWrites c.ssl c.replicaSet
      = queryString c.retryWrites c.ssl c.replicaSet ∧
    (clientUri (MongoClient ext c) = none ∨
     clientUri (MongoClient ext c)
       = some ("mongodb://" ++ c.host ++ ":" ++ c.port
           ++ queryString c.retryWrites c.ssl c.replicaSet)) := by
  refine ⟨assembleArgs_eq_queryString _ _ _, ?_⟩
  rw [MongoClient, if_neg (by simp [h1, h2]), if_neg (by simp [h3])]
  by_cases hca : c.ca = ""
  · rw [if_neg (by simp [hca])]
    right
    simp [clientUri, mkUri, assembleArgs_eq_queryString]
  · rw [if_pos hca]
    cases hg : getTLSConfigWithAllServerCertificates ext c.ca
    · left
      simp [clientUri]
    · right
      simp [clientUri, mkUri, assembleArgs_eq_queryString]

/-- Configuration with all three recognized options set and no TLS material. -/
def cfgW : ClientConfig :=
  ⟨"h", "27017", "u", "p", "admin", true, false, "rs0", "", "", "", "", 1⟩

/-- Witness for C9 at a configuration with retry-writes true, the TLS toggle
on, and a replica-set name. -/
theorem c9_witness :
    assembleArgs cfgW.retryWrites cfgW.ssl cfgW.replicaSet
      = queryString cfgW.retryWrites cfgW.ssl cfgW.replicaSet ∧
    (clientUri (MongoClient extPEM cfgW) = none ∨
     clientUri (MongoClient extPEM cfgW)
       = some ("mongodb://" ++ cfgW.host ++ ":" ++ cfgW.port
           ++ queryString cfgW.retryWrites cfgW.ssl cfgW.replicaSet)) :=
  c9_uri_query_assembly extPEM cfgW rfl rfl rfl

/-- C5: MongoClient rejects inline certificate material without key material
(and vice versa) with the pairing configuration error, and rejects the
combination of inline cert/key material with a certificate directory path
with the error "cert_path must not be specified"; in both cases it returns
the error and no client before any network or filesystem effect (the
embedding of these branches is pure and builds nothing). -/
theorem c5_config_errors (ext : Ext) (c : ClientConfig) :
    (((c.cert ≠ "" ∧ c.key = "") ∨ (c.cert = "" ∧ c.key ≠ "")) →
      MongoClient ext c
        = Except.error "cert_material, and key_material must be specified") ∧
    ((c.cert ≠ "" ∧ c.key ≠ "" ∧ c.certPath ≠ "") →
      MongoClient ext c = Except.error "cert_path must not be specified") := by
  constructor
  · intro h
    rcases h with ⟨hc, hk⟩ | ⟨hc, hk⟩
    · rw [MongoClient, if_pos (Or.inl hc), if_pos (Or.inr hk)]
    · rw [MongoClient, if_pos (Or.inr hk), if_pos (Or.inl hc)]
  · rintro ⟨hc, hk, hp⟩
    rw [MongoClient, if_pos (Or.inl hc),
      if_neg (fun hor => hor.elim hc hk), if_pos hp]

/-- Configuration with inline cert material but no key material. -/
def cfgCertOnly : ClientConfig :=
  ⟨"h", "1", "u", "p", "admin", false, false, "", "", "C", "", "", -1⟩

/-- Configuration with inline cert and key material and a directory path. -/
def cfgCertKeyPath : ClientConfig :=
  ⟨"h", "1", "u", "p", "admin", false, false, "", "", "C", "K", "/certs", -1⟩

/-- Witness for C5 at the two concrete misconfigurations. -/
theorem c5_witness :
    MongoClient extPEM cfgCertOnly
      = Except.error "cert_material, and key_material must be specified" ∧
    MongoClient extPEM cfgCertKeyPath
      = Except.error "cert_path must not be specified" :=
  ⟨(c5_config_errors extPEM cfgCertOnly).1 (Or.inl ⟨by decide, rfl⟩),
   (c5_config_errors extPEM cfgCertKeyPath).2 ⟨by decide, by decide, by decide⟩⟩

/-- Configuration with only a certificate directory path set. -/
def cfgCertPath : ClientConfig :=
  ⟨"localhost", "27017", "user", "pass", "admin", false, false, "", "", "", "",
   "/certs", -1⟩

/-- C4: the claim fails on the code (the code contradicts its own comment
"If there is cert information, load it and use it"). With a certificate
directory configured and no inline material, MongoClient joins the three
file names but then converts the joined path STRINGS to byte slices and
hands those as the PEM buffers of the TLS builder — it performs no file
read at all (the embedding of MongoClient takes no filesystem input).
Consequently, with key-pair and CA parsers that accept exactly PEM-armored
buffers, construction always fails on the path bytes, regardless of what the
files contain. -/
theorem c4_certpath_passes_path_strings :
    MongoClient extPEM cfgCertPath
      = buildHttpClientFromCertPath extPEM (some "/certs/ca.pem")
          (some "/certs/cert.pem") (some "/certs/key.pem") cfgCertPath ∧
    MongoClient extPEM cfgCertPath
      = Except.error "tls: failed to find any PEM data in certificate input" :=
  ⟨rfl, rfl⟩

end Mongodb
